import Mathlib

/-!
Shallow embedding of the TechMart payment API (src/server.js).

The embedding models the payment intake sequence of `POST /api/payments`
(validation, merchant-validation cache with TTL, ledger insert), the
`GET /api/payments` listing (`SELECT TOP 20 ... ORDER BY CreatedAt DESC`)
and the `GET /api/stats` aggregation (trailing 24-hour window, SQL
`COUNT` / `SUM` / `AVG` / `COUNT(DISTINCT ...)` semantics, where `SUM` and
`AVG` over an empty set are NULL).

Time is modelled as an integer number of seconds.  Monetary amounts are
modelled as exact rationals (the table column is `decimal(10,2)`).
External failures are modelled by flags on the store: `cacheOpen`
(`redisClient?.isOpen`), `cacheFails` (a cache operation throws) and
`ledgerFails` (the SQL insert throws).  The list of `Eff` values returned
by `processPayment` records the I/O operations the handler performed.
-/

namespace TechMart

/-- The merchant validation record the handler serialises into the cache:
`{valid, checkedAt, checkCount}`. -/
structure MerchantRecord where
  valid : Bool
  checkedAt : Int
  checkCount : Nat
deriving DecidableEq

/-- A cache entry as stored by `setEx`: the record plus its absolute expiry
instant (store time plus TTL). -/
structure CacheEntry where
  record : MerchantRecord
  expiresAt : Int
deriving DecidableEq

/-- One row of the `Payments` table. -/
structure Payment where
  paymentId : Nat
  amount : Rat
  currency : String
  merchantId : String
  status : String
  createdAt : Int
deriving DecidableEq

/-- The JSON body returned by the handler on success (HTTP 201). -/
structure PaymentResult where
  paymentId : Nat
  status : String
  amount : Rat
  currency : String
  merchantId : String
  processedAt : Int
deriving DecidableEq

/-- The error outcomes of the intake sequence: HTTP 400 on missing
parameters, HTTP 400 with the merchant id on a cached invalid merchant,
HTTP 500 when the SQL insert throws. -/
inductive PaymentError where
  | ValidationError
  | MerchantRejectedError (merchantId : String)
  | PersistenceError
deriving DecidableEq

/-- The request body `{amount, currency, merchantId}`; each field may be
absent (JS `undefined`). -/
structure Body where
  amount : Option Rat
  currency : Option String
  merchantId : Option String
deriving DecidableEq

/-- The external state the handler touches: the Redis cache (an
association list keyed by cache key), the `Payments` table in insertion
order, the next identity value (`IDENTITY(1,1)`), and the failure flags of
the two services. -/
structure Store where
  cache : List (String × CacheEntry)
  ledger : List Payment
  nextId : Nat
  cacheOpen : Bool
  cacheFails : Bool
  ledgerFails : Bool
deriving DecidableEq

/-- The I/O operations one invocation performs, in order. -/
inductive Eff where
  | cacheRead (key : String)
  | cacheWrite (key : String)
  | ledgerWrite
deriving DecidableEq

/-- JS truthiness of the `amount` field: `undefined` and `0` are falsy. -/
def truthyNum : Option Rat → Bool
  | none => false
  | some a => decide (a ≠ 0)

/-- JS truthiness of a string field: `undefined` and `""` are falsy. -/
def truthyStr : Option String → Bool
  | none => false
  | some s => decide (s ≠ "")

/-- The handler's validation guard `!amount || !currency || !merchantId`,
stated positively. -/
def validBody (b : Body) : Bool :=
  truthyNum b.amount && truthyStr b.currency && truthyStr b.merchantId

/-- The cache read `redisClient.get(key)` at instant `now`: an entry is
visible while its TTL has not elapsed. -/
def cacheGet (now : Int) (cache : List (String × CacheEntry)) (k : String) :
    Option MerchantRecord :=
  match cache.find? (fun e => e.1 == k) with
  | none => none
  | some e => if now < e.2.expiresAt then some e.2.record else none

/-- The cache write `redisClient.setEx(key, ttl, value)` at instant
`now`: stores the record under `k`, replacing any previous entry,
expiring at `now + ttl`. -/
def cacheSetEx (now : Int) (cache : List (String × CacheEntry))
    (k : String) (ttl : Int) (r : MerchantRecord) :
    List (String × CacheEntry) :=
  (k, ⟨r, now + ttl⟩) :: cache.filter (fun e => e.1 != k)

/-- The merchant-validation step of the handler: if the client is open and
the operation does not throw, a miss writes `{valid: true, checkedAt: now,
checkCount: 1}` with a 300 second TTL and the merchant counts as valid; a
hit uses the cached `valid` flag; a thrown cache error and a closed client
both leave `merchantValid` at its initial `true`. -/
def checkMerchant (now : Int) (m : String) (s : Store) :
    Bool × Store × List Eff :=
  if s.cacheOpen then
    if s.cacheFails then (true, s, [Eff.cacheRead ("merchant:" ++ m)])
    else
      match cacheGet now s.cache ("merchant:" ++ m) with
      | none =>
          let stored : MerchantRecord := ⟨true, now, 1⟩
          (true,
           { s with cache := cacheSetEx now s.cache ("merchant:" ++ m) 300 stored },
           [Eff.cacheRead ("merchant:" ++ m), Eff.cacheWrite ("merchant:" ++ m)])
      | some r => (r.valid, s, [Eff.cacheRead ("merchant:" ++ m)])
  else (true, s, [])

/-- The body of the `try` block of the handler, after validation has
passed: resolve merchant validity through the cache, reject an invalid
merchant (HTTP 400), otherwise run the SQL `INSERT` (whose failure the
`catch` turns into HTTP 500) and return the `SCOPE_IDENTITY()` value. -/
def processValidated (now : Int) (a : Rat) (c m : String) (s : Store) :
    Except PaymentError PaymentResult × Store × List Eff :=
  if (checkMerchant now m s).1 then
    if s.ledgerFails then
      (Except.error PaymentError.PersistenceError,
       (checkMerchant now m s).2.1, (checkMerchant now m s).2.2)
    else
      (Except.ok ⟨(checkMerchant now m s).2.1.nextId, "COMPLETED", a, c, m, now⟩,
       { (checkMerchant now m s).2.1 with
           ledger := (checkMerchant now m s).2.1.ledger ++
             [⟨(checkMerchant now m s).2.1.nextId, a, c, m, "COMPLETED", now⟩],
           nextId := (checkMerchant now m s).2.1.nextId + 1 },
       (checkMerchant now m s).2.2 ++ [Eff.ledgerWrite])
  else
    (Except.error (PaymentError.MerchantRejectedError m),
     (checkMerchant now m s).2.1, (checkMerchant now m s).2.2)

/-- The `POST /api/payments` handler: validate (`!amount || !currency ||
!merchantId` returns HTTP 400 before any I/O), then run the validated
sequence. -/
def processPayment (now : Int) (b : Body) (s : Store) :
    Except PaymentError PaymentResult × Store × List Eff :=
  if truthyNum b.amount && truthyStr b.currency && truthyStr b.merchantId then
    processValidated now (b.amount.getD 0) (b.currency.getD "")
      (b.merchantId.getD "") s
  else
    (Except.error PaymentError.ValidationError, s, [])

/-- The `GET /api/stats` aggregates, with SQL semantics: `SUM` and `AVG`
over an empty set are NULL (`none`). -/
structure DailyStats where
  totalPayments : Nat
  totalAmount : Option Rat
  averageAmount : Option Rat
  uniqueMerchants : Nat
deriving DecidableEq

/-- The `GET /api/stats` query: aggregates over rows with
`CreatedAt >= DATEADD(day, -1, GETDATE())`, i.e. `createdAt` within the
trailing 24 hours (86400 seconds) of `now`. -/
def computeDailyStats (now : Int) (ledger : List Payment) : DailyStats :=
  let rows := ledger.filter (fun p => decide (now - 86400 ≤ p.createdAt))
  { totalPayments := rows.length
    totalAmount :=
      if rows.isEmpty then none else some ((rows.map Payment.amount).sum)
    averageAmount :=
      if rows.isEmpty then none
      else some ((rows.map Payment.amount).sum / (rows.length : Rat))
    uniqueMerchants := (rows.map Payment.merchantId).dedup.length }

/-- The `ORDER BY CreatedAt DESC` comparator, as a total Boolean order. -/
def byCreatedAtDesc (a b : Payment) : Bool :=
  decide (b.createdAt ≤ a.createdAt)

/-- The `GET /api/payments` query: `SELECT TOP limit ... ORDER BY
CreatedAt DESC`, ties broken by insertion order (`mergeSort` is stable). -/
def listRecentPayments (limit : Nat) (ledger : List Payment) : List Payment :=
  (ledger.mergeSort byCreatedAtDesc).take limit

/-- Number of cache writes in an effect trace. -/
def cacheWrites (tr : List Eff) : Nat :=
  (tr.filter (fun e => match e with | Eff.cacheWrite _ => true | _ => false)).length

/-- Number of cache reads in an effect trace. -/
def cacheReads (tr : List Eff) : Nat :=
  (tr.filter (fun e => match e with | Eff.cacheRead _ => true | _ => false)).length

/-- Number of ledger writes in an effect trace. -/
def ledgerWrites (tr : List Eff) : Nat :=
  (tr.filter (fun e => match e with | Eff.ledgerWrite => true | _ => false)).length

/-- A store with an open, working cache, an empty cache and ledger, and the
identity seed `1` (`IDENTITY(1,1)`). -/
def emptyStore : Store :=
  ⟨[], [], 1, true, false, false⟩

/-- A well-formed request body used to instantiate theorems. -/
def sampleBody : Body :=
  ⟨some 5, some "USD", some "M1"⟩

/-- The merchant-validation step never touches the ledger. -/
theorem checkMerchant_ledger (now : Int) (m : String) (s : Store) :
    (checkMerchant now m s).2.1.ledger = s.ledger := by
  unfold checkMerchant
  split
  · split
    · rfl
    · split <;> rfl
  · rfl

/-- The merchant-validation step never touches the identity counter. -/
theorem checkMerchant_nextId (now : Int) (m : String) (s : Store) :
    (checkMerchant now m s).2.1.nextId = s.nextId := by
  unfold checkMerchant
  split
  · split
    · rfl
    · split <;> rfl
  · rfl

/-- With the cache client closed, the merchant resolves valid with no
cache operation at all. -/
theorem checkMerchant_closed (now : Int) (m : String) (s : Store)
    (h : s.cacheOpen = false) : checkMerchant now m s = (true, s, []) := by
  unfold checkMerchant
  simp [h]

/-- A thrown cache operation is absorbed: the merchant resolves valid and
the store is unchanged. -/
theorem checkMerchant_throws (now : Int) (m : String) (s : Store)
    (ho : s.cacheOpen = true) (hf : s.cacheFails = true) :
    checkMerchant now m s = (true, s, [Eff.cacheRead ("merchant:" ++ m)]) := by
  unfold checkMerchant
  simp [ho, hf]

/-- On a cache miss the merchant resolves valid and a `valid=true` record
is stored under a 300 second TTL. -/
theorem checkMerchant_miss (now : Int) (m : String) (s : Store)
    (ho : s.cacheOpen = true) (hf : s.cacheFails = false)
    (hg : cacheGet now s.cache ("merchant:" ++ m) = none) :
    checkMerchant now m s =
      (true,
       { s with cache := cacheSetEx now s.cache ("merchant:" ++ m) 300 ⟨true, now, 1⟩ },
       [Eff.cacheRead ("merchant:" ++ m), Eff.cacheWrite ("merchant:" ++ m)]) := by
  unfold checkMerchant
  simp [ho, hf, hg]

/-- On a cache hit the stored validity decides and nothing is written. -/
theorem checkMerchant_hit (now : Int) (m : String) (s : Store)
    (r : MerchantRecord)
    (ho : s.cacheOpen = true) (hf : s.cacheFails = false)
    (hg : cacheGet now s.cache ("merchant:" ++ m) = some r) :
    checkMerchant now m s = (r.valid, s, [Eff.cacheRead ("merchant:" ++ m)]) := by
  unfold checkMerchant
  simp [ho, hf, hg]

/-- Looking up the key just stored by `cacheSetEx` returns the stored
record exactly while the TTL has not elapsed. -/
theorem cacheGet_cacheSetEx (t now : Int) (cache : List (String × CacheEntry))
    (k : String) (ttl : Int) (r : MerchantRecord) :
    cacheGet t (cacheSetEx now cache k ttl r) k =
      if t < now + ttl then some r else none := by
  unfold cacheGet cacheSetEx
  rw [List.find?_cons_of_pos _ (by simp)]

/-- Claim C2: a request missing `amount`, `currency` or `merchantId`
(absent, or the JS-falsy `""`) fails with `ValidationError` before any
I/O: the store is unchanged and the effect trace is empty, so no cache
read, no cache write and no ledger row. -/
theorem missing_field_validation_error (now : Int) (b : Body) (s : Store)
    (h : truthyNum b.amount = false ∨ truthyStr b.currency = false ∨
      truthyStr b.merchantId = false) :
    processPayment now b s = (Except.error PaymentError.ValidationError, s, []) := by
  unfold processPayment
  rcases h with h | h | h <;> simp [h]

/-- Witness for C2: a body with no `amount` is rejected with no effect. -/
theorem missing_field_validation_error_witness :
    processPayment 0 ⟨none, some "USD", some "M1"⟩ emptyStore =
      (Except.error PaymentError.ValidationError, emptyStore, []) :=
  missing_field_validation_error 0 ⟨none, some "USD", some "M1"⟩ emptyStore
    (Or.inl rfl)

/-- Claim C10: an `amount` present but equal to the number `0` is JS-falsy,
so `!amount` fires and the request fails with `ValidationError`, with no
cache or ledger side effect — indistinguishable from a missing amount. -/
theorem zero_amount_validation_error (now : Int) (c m : Option String)
    (s : Store) :
    processPayment now ⟨some 0, c, m⟩ s =
      (Except.error PaymentError.ValidationError, s, []) := by
  unfold processPayment
  simp [truthyNum]

/-- Claim C3: a cached `valid=false` record makes the request fail with
`MerchantRejectedError` carrying the merchant id; the store — in
particular the ledger — is unchanged and the only effect is the cache
read. -/
theorem cached_invalid_merchant_rejected (now : Int) (b : Body) (s : Store)
    (m : String) (r : MerchantRecord)
    (hm : b.merchantId = some m)
    (ha : truthyNum b.amount = true) (hc : truthyStr b.currency = true)
    (hms : truthyStr b.merchantId = true)
    (ho : s.cacheOpen = true) (hf : s.cacheFails = false)
    (hg : cacheGet now s.cache ("merchant:" ++ m) = some r)
    (hv : r.valid = false) :
    processPayment now b s =
      (Except.error (PaymentError.MerchantRejectedError m), s,
       [Eff.cacheRead ("merchant:" ++ m)]) := by
  have hck := checkMerchant_hit now m s r ho hf hg
  rw [hm] at hms
  unfold processPayment processValidated
  simp [ha, hc, hms, hm, hck, hv]

/-- A store whose cache holds a live `valid=false` record for `M1`. -/
def invalidM1Store : Store :=
  ⟨[("merchant:M1", ⟨⟨false, 0, 1⟩, 300⟩)], [], 1, true, false, false⟩

/-- Witness for C3: merchant `M1` cached invalid is rejected, the ledger
stays empty. -/
theorem cached_invalid_merchant_rejected_witness :
    processPayment 10 sampleBody invalidM1Store =
      (Except.error (PaymentError.MerchantRejectedError "M1"), invalidM1Store,
       [Eff.cacheRead ("merchant:" ++ "M1")]) :=
  cached_invalid_merchant_rejected 10 sampleBody invalidM1Store "M1"
    ⟨false, 0, 1⟩ rfl rfl rfl rfl rfl rfl (by decide) rfl

/-- Claim C5: a closed cache client or a throwing cache operation is
absorbed: the merchant is treated as valid, the cache is not modified,
and the payment still succeeds whenever the ledger write succeeds — the
cache failure is never surfaced to the caller. -/
theorem cache_failure_fail_open (now : Int) (b : Body) (s : Store)
    (hv : validBody b = true)
    (hcache : s.cacheOpen = false ∨ s.cacheFails = true)
    (hl : s.ledgerFails = false) :
    (processPayment now b s).1 =
      Except.ok ⟨s.nextId, "COMPLETED", b.amount.getD 0, b.currency.getD "",
        b.merchantId.getD "", now⟩ ∧
    (processPayment now b s).2.1.cache = s.cache := by
  simp only [validBody, Bool.and_eq_true] at hv
  obtain ⟨⟨ha, hc⟩, hm⟩ := hv
  unfold processPayment processValidated
  by_cases ho : s.cacheOpen = true
  · rcases hcache with h | h
    · rw [ho] at h
      cases h
    · have hck := checkMerchant_throws now (b.merchantId.getD "") s ho h
      simp [ha, hc, hm, hck, hl]
  · have hck := checkMerchant_closed now (b.merchantId.getD "") s
      (Bool.not_eq_true _ ▸ ho)
    simp [ha, hc, hm, hck, hl]

/-- A store whose cache client is closed (`redisClient?.isOpen` false). -/
def closedCacheStore : Store :=
  ⟨[], [], 1, false, false, false⟩

/-- Witness for C5: with the cache client closed the payment succeeds. -/
theorem cache_failure_fail_open_witness :
    (processPayment 0 sampleBody closedCacheStore).1 =
      Except.ok ⟨1, "COMPLETED", 5, "USD", "M1", 0⟩ ∧
    (processPayment 0 sampleBody closedCacheStore).2.1.cache =
      closedCacheStore.cache :=
  cache_failure_fail_open 0 sampleBody closedCacheStore (by decide)
    (Or.inl rfl) rfl

/-- Claim C6: a request that reaches the ledger write (valid input and
merchant resolved valid) fails with `PersistenceError` when the write
fails, whatever the cache state. -/
theorem ledger_failure_persistence_error (now : Int) (b : Body) (s : Store)
    (hv : validBody b = true)
    (hm : (checkMerchant now (b.merchantId.getD "") s).1 = true)
    (hl : s.ledgerFails = true) :
    (processPayment now b s).1 = Except.error PaymentError.PersistenceError := by
  simp only [validBody, Bool.and_eq_true] at hv
  obtain ⟨⟨ha, hc⟩, hmm⟩ := hv
  unfold processPayment processValidated
  simp [ha, hc, hmm, hm, hl]

/-- A store whose SQL insert throws. -/
def failingLedgerStore : Store :=
  ⟨[], [], 1, true, false, true⟩

/-- Witness for C6: a valid request against a failing ledger ends in
`PersistenceError`. -/
theorem ledger_failure_persistence_error_witness :
    (processPayment 0 sampleBody failingLedgerStore).1 =
      Except.error PaymentError.PersistenceError :=
  ledger_failure_persistence_error 0 sampleBody failingLedgerStore
    (by decide) (by decide) rfl

/-- The validated sequence leaves the cache exactly as the
merchant-validation step left it. -/
theorem processValidated_cache (now : Int) (a : Rat) (c m : String)
    (s : Store) :
    (processValidated now a c m s).2.1.cache =
      (checkMerchant now m s).2.1.cache := by
  unfold processValidated
  split
  · split <;> rfl
  · rfl

/-- The trace of the validated sequence is the merchant-validation trace,
possibly followed by the one ledger write. -/
theorem processValidated_trace (now : Int) (a : Rat) (c m : String)
    (s : Store) :
    (processValidated now a c m s).2.2 = (checkMerchant now m s).2.2 ∨
    (processValidated now a c m s).2.2 =
      (checkMerchant now m s).2.2 ++ [Eff.ledgerWrite] := by
  unfold processValidated
  split
  · split
    · left
      rfl
    · right
      rfl
  · left
    rfl

/-- The three possible merchant-validation traces: nothing (closed
client), a lone read (hit or thrown operation), or a read then the one
write (miss). -/
theorem checkMerchant_trace (now : Int) (m : String) (s : Store) :
    (checkMerchant now m s).2.2 = [] ∨
    (checkMerchant now m s).2.2 = [Eff.cacheRead ("merchant:" ++ m)] ∨
    (checkMerchant now m s).2.2 =
      [Eff.cacheRead ("merchant:" ++ m), Eff.cacheWrite ("merchant:" ++ m)] := by
  unfold checkMerchant
  split
  · split
    · right
      left
      rfl
    · split
      · right
        right
        rfl
      · right
        left
        rfl
  · left
    rfl

/-- Claim C1: whenever `processPayment` succeeds, exactly one row was
appended to the ledger, that row's status is `COMPLETED`, and the
`paymentId` of the returned result is the store-generated identity of
that row. -/
theorem success_appends_one_completed_row (now : Int) (b : Body) (s : Store)
    (r : PaymentResult) (s2 : Store) (tr : List Eff)
    (h : processPayment now b s = (Except.ok r, s2, tr)) :
    s2.ledger = s.ledger ++
      [⟨r.paymentId, r.amount, r.currency, r.merchantId, "COMPLETED", now⟩] ∧
    r.status = "COMPLETED" ∧ r.paymentId = s.nextId := by
  unfold processPayment at h
  split at h
  · unfold processValidated at h
    split at h
    · split at h
      · simp at h
      · simp only [Prod.mk.injEq, Except.ok.injEq] at h
        obtain ⟨hr, hs2, htr⟩ := h
        subst hr
        subst hs2
        refine ⟨?_, rfl, ?_⟩
        · simp [checkMerchant_ledger, checkMerchant_nextId]
        · simp [checkMerchant_nextId]
    · simp at h
  · simp at h

/-- Witness for C1: a concrete successful run appends its one row and
returns its id. -/
theorem success_appends_one_completed_row_witness :
    (processPayment 0 sampleBody emptyStore).2.1.ledger =
      emptyStore.ledger ++ [⟨1, 5, "USD", "M1", "COMPLETED", 0⟩] ∧
    "COMPLETED" = "COMPLETED" ∧ (1 : Nat) = emptyStore.nextId := by
  have h := success_appends_one_completed_row 0 sampleBody emptyStore
    ⟨1, "COMPLETED", 5, "USD", "M1", 0⟩
    (processPayment 0 sampleBody emptyStore).2.1
    (processPayment 0 sampleBody emptyStore).2.2 rfl
  exact h

/-- Claim C4: on a cache miss the merchant is trusted — the request
succeeds whenever the ledger write succeeds — and a `valid=true` record
is stored under a 300 second TTL, so any later lookup before expiry
returns `valid=true`; on a cache hit the stored validity is used
instead. -/
theorem cache_miss_trust_on_first_check (now : Int) (b : Body) (s : Store)
    (m : String)
    (hm : b.merchantId = some m)
    (hv : validBody b = true)
    (ho : s.cacheOpen = true) (hf : s.cacheFails = false)
    (hg : cacheGet now s.cache ("merchant:" ++ m) = none) :
    (s.ledgerFails = false →
      (processPayment now b s).1 =
        Except.ok ⟨s.nextId, "COMPLETED", b.amount.getD 0, b.currency.getD "",
          m, now⟩) ∧
    (∀ t : Int, t < now + 300 →
      cacheGet t (processPayment now b s).2.1.cache ("merchant:" ++ m) =
        some ⟨true, now, 1⟩) ∧
    (∀ (s2 : Store) (r : MerchantRecord), s2.cacheOpen = true →
      s2.cacheFails = false →
      cacheGet now s2.cache ("merchant:" ++ m) = some r →
      (checkMerchant now m s2).1 = r.valid) := by
  simp only [validBody, Bool.and_eq_true] at hv
  obtain ⟨⟨ha, hc⟩, hmm⟩ := hv
  rw [hm] at hmm
  have hck := checkMerchant_miss now m s ho hf hg
  refine ⟨?_, ?_, ?_⟩
  · intro hl
    unfold processPayment processValidated
    simp [ha, hc, hm, hmm, hck, hl]
  · intro t ht
    unfold processPayment
    simp only [ha, hc, hm, hmm, Option.getD_some, Bool.and_self]
    rw [if_pos trivial, processValidated_cache, hck]
    rw [cacheGet_cacheSetEx]
    simp [ht]
  · intro s2 r ho2 hf2 hg2
    rw [checkMerchant_hit now m s2 r ho2 hf2 hg2]

/-- Witness for C4: a fresh merchant is trusted and its record is
readable with `valid=true` before the TTL elapses. -/
theorem cache_miss_trust_on_first_check_witness :
    (processPayment 0 sampleBody emptyStore).1 =
      Except.ok ⟨1, "COMPLETED", 5, "USD", "M1", 0⟩ ∧
    cacheGet 100 (processPayment 0 sampleBody emptyStore).2.1.cache
      ("merchant:" ++ "M1") = some ⟨true, 0, 1⟩ := by
  have h := cache_miss_trust_on_first_check 0 sampleBody emptyStore "M1"
    rfl (by decide) rfl rfl rfl
  exact ⟨h.1 rfl, h.2.1 100 (by decide)⟩

/-- Claim C7 counterexample: on an empty ledger the SQL aggregates `SUM`
and `AVG` are NULL, so `totalAmount` is `none`, not `0` as the claim
states. -/
theorem dailyStats_empty_totalAmount_null :
    (computeDailyStats 0 []).totalAmount = none ∧
    (computeDailyStats 0 []).totalAmount ≠ some 0 := by
  exact ⟨rfl, by decide⟩

/-- Claim C7 (amended): `computeDailyStats` aggregates only rows whose
`createdAt` lies in the trailing 24 hours; an empty ledger yields
`totalPayments = 0`, `uniqueMerchants = 0` and NULL (`none`)
`totalAmount` and `averageAmount` rather than an error; when every row
is inside the window it yields `totalPayments = N`, `totalAmount` the
exact sum and `averageAmount` the exact mean, and a row outside the
window changes nothing. -/
theorem dailyStats_window_totals (now : Int) (ledger : List Payment)
    (hin : ∀ p ∈ ledger, now - 86400 ≤ p.createdAt) :
    computeDailyStats now [] = ⟨0, none, none, 0⟩ ∧
    (computeDailyStats now ledger).totalPayments = ledger.length ∧
    (ledger ≠ [] →
      (computeDailyStats now ledger).totalAmount =
        some ((ledger.map Payment.amount).sum) ∧
      (computeDailyStats now ledger).averageAmount =
        some ((ledger.map Payment.amount).sum / (ledger.length : Rat))) ∧
    (∀ q : Payment, q.createdAt < now - 86400 →
      computeDailyStats now (ledger ++ [q]) = computeDailyStats now ledger) := by
  have hfil :
      ledger.filter (fun p => decide (now - 86400 ≤ p.createdAt)) = ledger :=
    List.filter_eq_self.2 (fun a ha => decide_eq_true (hin a ha))
  refine ⟨rfl, ?_, ?_, ?_⟩
  · unfold computeDailyStats
    rw [hfil]
  · intro hne
    unfold computeDailyStats
    rw [hfil]
    cases ledger with
    | nil => exact absurd rfl hne
    | cons p l => exact ⟨rfl, rfl⟩
  · intro q hq
    unfold computeDailyStats
    rw [List.filter_append, hfil]
    have hq2 : List.filter (fun p => decide (now - 86400 ≤ p.createdAt)) [q] = [] := by
      simp only [List.filter_cons, List.filter_nil]
      rw [decide_eq_false (not_le.2 hq)]
      rfl
    rw [hq2, List.append_nil]

/-- Witness for C7: inserting 10.00 and 25.50 for one merchant inside
the window gives total 35.50, average 17.75 over 2 payments. -/
theorem dailyStats_window_totals_witness :
    (computeDailyStats 0
      [⟨1, 10, "USD", "M1", "COMPLETED", 0⟩,
       ⟨2, (51 : Rat) / 2, "USD", "M1", "COMPLETED", 0⟩]).totalPayments = 2 ∧
    (computeDailyStats 0
      [⟨1, 10, "USD", "M1", "COMPLETED", 0⟩,
       ⟨2, (51 : Rat) / 2, "USD", "M1", "COMPLETED", 0⟩]).totalAmount =
      some ((71 : Rat) / 2) ∧
    (computeDailyStats 0
      [⟨1, 10, "USD", "M1", "COMPLETED", 0⟩,
       ⟨2, (51 : Rat) / 2, "USD", "M1", "COMPLETED", 0⟩]).averageAmount =
      some ((71 : Rat) / 4) ∧
    (computeDailyStats 0
      [⟨1, 10, "USD", "M1", "COMPLETED", 0⟩,
       ⟨2, (51 : Rat) / 2, "USD", "M1", "COMPLETED", 0⟩]).uniqueMerchants = 1 := by
  have h := dailyStats_window_totals 0
    [⟨1, 10, "USD", "M1", "COMPLETED", 0⟩,
     ⟨2, (51 : Rat) / 2, "USD", "M1", "COMPLETED", 0⟩] (by decide)
  refine ⟨h.2.1, ?_, ?_, by decide⟩
  · rw [(h.2.2.1 (by decide)).1]
    norm_num
  · rw [(h.2.2.1 (by decide)).2]
    norm_num

/-- Claim C8: `listRecentPayments 20` returns at most 20 rows, ordered by
`createdAt` descending, for every ledger state. -/
theorem listRecent_at_most_twenty_sorted (ledger : List Payment) :
    (listRecentPayments 20 ledger).length ≤ 20 ∧
    (listRecentPayments 20 ledger).Pairwise
      (fun a b => b.createdAt ≤ a.createdAt) := by
  constructor
  · unfold listRecentPayments
    simp [List.length_take]
  · have htrans : ∀ a b c : Payment,
        byCreatedAtDesc a b → byCreatedAtDesc b c → byCreatedAtDesc a c := by
      intro a b c hab hbc
      simp only [byCreatedAtDesc, decide_eq_true_eq] at hab hbc ⊢
      omega
    have htotal : ∀ a b : Payment, byCreatedAtDesc a b || byCreatedAtDesc b a := by
      intro a b
      simp only [byCreatedAtDesc, Bool.or_eq_true, decide_eq_true_eq]
      omega
    have hs := List.sorted_mergeSort htrans htotal ledger
    have hp := List.Pairwise.sublist
      (List.take_sublist 20 (ledger.mergeSort byCreatedAtDesc)) hs
    exact hp.imp (fun h => by simpa [byCreatedAtDesc] using h)

/-- Appending the ledger write does not change the cache-write count. -/
theorem cacheWrites_append_ledgerWrite (l : List Eff) :
    cacheWrites (l ++ [Eff.ledgerWrite]) = cacheWrites l := by
  simp [cacheWrites, List.filter_append, List.filter]

/-- Appending the ledger write adds one to the ledger-write count. -/
theorem ledgerWrites_append_ledgerWrite (l : List Eff) :
    ledgerWrites (l ++ [Eff.ledgerWrite]) = ledgerWrites l + 1 := by
  simp [ledgerWrites, List.filter_append, List.filter]

/-- Claim C9: each invocation performs at most one cache write and at
most one ledger write; the cache write happens exactly on a valid-input
cache miss, none on a hit — where the cache, hence any existing record,
is left unchanged — and none when the cache client is closed or the
operation throws. -/
theorem at_most_one_write_per_invocation (now : Int) (b : Body) (s : Store) :
    cacheWrites (processPayment now b s).2.2 ≤ 1 ∧
    ledgerWrites (processPayment now b s).2.2 ≤ 1 ∧
    (validBody b = true → s.cacheOpen = true → s.cacheFails = false →
      cacheGet now s.cache ("merchant:" ++ b.merchantId.getD "") = none →
      cacheWrites (processPayment now b s).2.2 = 1) ∧
    (∀ r : MerchantRecord, s.cacheOpen = true → s.cacheFails = false →
      cacheGet now s.cache ("merchant:" ++ b.merchantId.getD "") = some r →
      cacheWrites (processPayment now b s).2.2 = 0 ∧
      (processPayment now b s).2.1.cache = s.cache) ∧
    ((s.cacheOpen = false ∨ s.cacheFails = true) →
      cacheWrites (processPayment now b s).2.2 = 0 ∧
      (processPayment now b s).2.1.cache = s.cache) := by
  by_cases hvb :
      (truthyNum b.amount && truthyStr b.currency && truthyStr b.merchantId) = true
  · have hpp : processPayment now b s =
        processValidated now (b.amount.getD 0) (b.currency.getD "")
          (b.merchantId.getD "") s := by
      unfold processPayment
      rw [if_pos hvb]
    refine ⟨?_, ?_, ?_, ?_, ?_⟩
    · rw [hpp]
      rcases processValidated_trace now (b.amount.getD 0) (b.currency.getD "")
          (b.merchantId.getD "") s with h | h <;> rw [h] <;>
        rcases checkMerchant_trace now (b.merchantId.getD "") s
            with h2 | h2 | h2 <;> rw [h2] <;> simp [cacheWrites, List.filter]
    · rw [hpp]
      rcases processValidated_trace now (b.amount.getD 0) (b.currency.getD "")
          (b.merchantId.getD "") s with h | h <;> rw [h] <;>
        rcases checkMerchant_trace now (b.merchantId.getD "") s
            with h2 | h2 | h2 <;> rw [h2] <;> simp [ledgerWrites, List.filter]
    · intro _ ho hf hg
      have hck := checkMerchant_miss now (b.merchantId.getD "") s ho hf hg
      rw [hpp]
      rcases processValidated_trace now (b.amount.getD 0) (b.currency.getD "")
          (b.merchantId.getD "") s with h | h <;> rw [h, hck] <;> rfl
    · intro r ho hf hg
      have hck := checkMerchant_hit now (b.merchantId.getD "") s r ho hf hg
      constructor
      · rw [hpp]
        rcases processValidated_trace now (b.amount.getD 0) (b.currency.getD "")
            (b.merchantId.getD "") s with h | h <;> rw [h, hck] <;> rfl
      · rw [hpp, processValidated_cache, hck]
    · intro hcache
      have hck : checkMerchant now (b.merchantId.getD "") s =
          (true, s, (checkMerchant now (b.merchantId.getD "") s).2.2) ∧
          ((checkMerchant now (b.merchantId.getD "") s).2.2 = [] ∨
           (checkMerchant now (b.merchantId.getD "") s).2.2 =
             [Eff.cacheRead ("merchant:" ++ b.merchantId.getD "")]) := by
        rcases hcache with h | h
        · rw [checkMerchant_closed now (b.merchantId.getD "") s h]
          exact ⟨rfl, Or.inl rfl⟩
        · by_cases ho : s.cacheOpen = true
          · rw [checkMerchant_throws now (b.merchantId.getD "") s ho h]
            exact ⟨rfl, Or.inr rfl⟩
          · rw [checkMerchant_closed now (b.merchantId.getD "") s
              (Bool.not_eq_true _ ▸ ho)]
            exact ⟨rfl, Or.inl rfl⟩
      constructor
      · rw [hpp]
        rcases processValidated_trace now (b.amount.getD 0) (b.currency.getD "")
            (b.merchantId.getD "") s with h | h <;> rw [h] <;>
          rcases hck.2 with h2 | h2 <;> rw [h2] <;> rfl
      · rw [hpp, processValidated_cache, hck.1]
  · have hpp : processPayment now b s =
        (Except.error PaymentError.ValidationError, s, []) := by
      unfold processPayment
      rw [if_neg hvb]
    rw [hpp]
    exact ⟨by simp [cacheWrites], by simp [ledgerWrites],
      fun h => absurd h hvb, fun r _ _ _ => ⟨rfl, rfl⟩, fun _ => ⟨rfl, rfl⟩⟩

end TechMart
